import Mathlib

/-!
Verification of the capsule lifecycle of the quick-vault application.

The development shallowly embeds the program's core: the storage layer
(`services/storage.ts`), the enrichment wrappers (`services/gemini.ts`),
the create/list flows of the top-level component (`App.tsx`), the
media-capture component (`CreateCapsule.tsx`) and the countdown display
(`CapsuleCard.tsx`).

Conventions of the embedding:
* ISO-8601 date strings are represented by their epoch-millisecond value
  (an `Int`), which is how the source always consumes them
  (`new Date(x).getTime()` and `Date` comparisons compare those values).
* A browser `Blob`/`File` is raw bytes plus a declared content type and
  an optional name (plain blobs carry the empty name).
* `URL.createObjectURL` is an injected handle generator
  `mkUrl : Blob → String`; each load of the store may use a different one.
* The asynchronous callbacks of the recording component are modelled as a
  step function over an explicit component state.
-/

namespace ChronosVault

/-- Binary payload: the bytes of a browser Blob or File together with its
declared content type; Files additionally carry a name (empty for plain
blobs). -/
structure Blob where
  name : String
  type : String
  bytes : List Nat
deriving DecidableEq, Repr

/-- Size of a blob in bytes (`Blob.size` in the browser). -/
def Blob.size (b : Blob) : Nat := b.bytes.length

/-- The `mediaType` union of `types.ts`: `'text' | 'image' | 'video' | 'audio'`. -/
inductive MediaKind
  | text
  | image
  | video
  | audio
deriving DecidableEq, Repr

/-- The in-memory `Capsule` record of `types.ts`.  `unlockDate` and
`createdAt` are epoch milliseconds; `mediaUrl` is the transient object-URL
handle. -/
structure Capsule where
  id : String
  title : String
  description : String
  mediaType : MediaKind
  mediaBlob : Option Blob
  mediaUrl : Option String
  unlockDate : Int
  createdAt : Int
  isLocked : Bool
  aiHint : Option String
  aiReflection : Option String
deriving DecidableEq, Repr

/-- The shape actually written to the object store.  `saveCapsule`
destructures `mediaUrl` away (`const ⟨mediaUrl, ...dataToStore⟩ = capsule`),
so the persisted record has no `mediaUrl` field at all. -/
structure StoredCapsule where
  id : String
  title : String
  description : String
  mediaType : MediaKind
  mediaBlob : Option Blob
  unlockDate : Int
  createdAt : Int
  isLocked : Bool
  aiHint : Option String
  aiReflection : Option String
deriving DecidableEq, Repr

/-- Drop the transient `mediaUrl` field, keeping every other field.  This is
the `const { mediaUrl, ...dataToStore } = capsule` destructuring in
`saveCapsule`. -/
def stripTransient (c : Capsule) : StoredCapsule :=
  { id := c.id, title := c.title, description := c.description,
    mediaType := c.mediaType, mediaBlob := c.mediaBlob,
    unlockDate := c.unlockDate, createdAt := c.createdAt,
    isLocked := c.isLocked, aiHint := c.aiHint,
    aiReflection := c.aiReflection }

/-- The contents of the `capsules` object store (keyed by `id`). -/
abbrev Store := List StoredCapsule

/-- IndexedDB `store.put`: upsert keyed by `id` — replaces the record with
the same key if present, inserts otherwise. -/
def putRecord (r : StoredCapsule) (s : Store) : Store :=
  if s.any (fun x => x.id = r.id) then
    s.map (fun x => if x.id = r.id then r else x)
  else
    s ++ [r]

/-- The `saveCapsule` of `services/storage.ts`: strips `mediaUrl`, then
`store.put` of the remaining record. -/
def saveCapsule (c : Capsule) (s : Store) : Store :=
  putRecord (stripTransient c) s

/-- Re-hydration of one stored record performed inside `getAllCapsules`:
spread the record, recompute `isLocked` as `new Date(c.unlockDate) > now`,
and regenerate `mediaUrl` from `mediaBlob` via `URL.createObjectURL`
(modelled by the injected `mkUrl`); `undefined` when there is no blob. -/
def rehydrate (mkUrl : Blob → String) (now : Int) (r : StoredCapsule) : Capsule :=
  { id := r.id, title := r.title, description := r.description,
    mediaType := r.mediaType, mediaBlob := r.mediaBlob,
    unlockDate := r.unlockDate, createdAt := r.createdAt,
    isLocked := decide (r.unlockDate > now),
    mediaUrl := r.mediaBlob.map mkUrl,
    aiHint := r.aiHint, aiReflection := r.aiReflection }

/-- The `getAllCapsules` of `services/storage.ts`: every stored record,
re-hydrated at read time. -/
def getAllCapsules (mkUrl : Blob → String) (now : Int) (s : Store) : List Capsule :=
  s.map (rehydrate mkUrl now)

/-- The `deleteCapsule` of `services/storage.ts`: IndexedDB `store.delete`
removes the record with the given key and succeeds whether or not the key
is present. -/
def deleteCapsule (i : String) (s : Store) : Store :=
  s.filter (fun r => r.id ≠ i)

/-- Outcome of one call to the Gemini collaborator, as distinguished by the
source: `getAI()` returns `null` when no API key is configured;
`generateContent` may throw; on success it yields `response.text` (possibly
empty). -/
inductive AIOutcome
  | noApiKey
  | failure
  | success (text : String)
deriving DecidableEq, Repr

/-- The `generateCapsuleHint` of `services/gemini.ts`.  Without a key it
returns the fixed string; on a thrown error the catch block returns the
fixed string; on success the image path returns `response.text ||
"A locked visual memory."` and the non-image path returns `response.text ||
"A voice echoing from yesterday."`. -/
def generateCapsuleHint (_mediaBlob : Blob) (mediaType : String)
    (ai : AIOutcome) : String :=
  match ai with
  | .noApiKey => "A mysterious memory from the past..."
  | .failure => "A securely sealed memory."
  | .success t =>
      if mediaType = "image" then
        if t = "" then "A locked visual memory." else t
      else
        if t = "" then "A voice echoing from yesterday." else t

/-- The `generateFutureReflection` of `services/gemini.ts`: empty string
without a key, empty string from the catch block, otherwise
`response.text || ""`. -/
def generateFutureReflection (_userNote : String) (ai : AIOutcome) : String :=
  match ai with
  | .noApiKey => ""
  | .failure => ""
  | .success t => t

/-- The `refineUserNote` of `services/gemini.ts`: the input note without a
key, the input note from the catch block, otherwise
`response.text || currentNote`.  The function is total: no outcome makes it
throw. -/
def refineUserNote (currentNote : String) (ai : AIOutcome) : String :=
  match ai with
  | .noApiKey => currentNote
  | .failure => currentNote
  | .success t => if t = "" then currentNote else t

/-- The `CreateCapsuleFormData` of `types.ts`.  The `datetime-local` input
yields either the empty string (absent) or a parseable timestamp, so the
`unlockDate` form field is embedded as `Option Int` with `none` for the
empty string. -/
structure CreateCapsuleFormData where
  title : String
  description : String
  unlockDate : Option Int
  mediaFile : Option Blob
deriving DecidableEq, Repr

/-- Derivation of `mediaType` inside `handleCreateSubmit` of `App.tsx`:
`text` with no file, else `image`/`audio` by content-type prefix, `video`
otherwise. -/
def deriveMediaKind (mediaFile : Option Blob) : MediaKind :=
  match mediaFile with
  | none => .text
  | some f =>
      if f.type.startsWith "image" then .image
      else if f.type.startsWith "audio" then .audio
      else .video

/-- The `handleCreateSubmit` of `App.tsx`: generate a reflection when the
note is non-empty, build the new capsule (fresh id, `createdAt := now`,
`isLocked := true`, no `mediaUrl`) and persist it with `saveCapsule`.  It
is only ever called with a present `unlockDate`; the `getD 0` default is
never reached from `handleSubmit`. -/
def handleCreateSubmit (freshId : String) (now : Int) (ai : AIOutcome)
    (data : CreateCapsuleFormData) (aiHint : Option String) (s : Store) :
    Store × Capsule :=
  let reflection : Option String :=
    if data.description = "" then none
    else some (generateFutureReflection data.description ai)
  let c : Capsule :=
    { id := freshId, title := data.title, description := data.description,
      mediaType := deriveMediaKind data.mediaFile,
      mediaBlob := data.mediaFile,
      mediaUrl := none,
      unlockDate := data.unlockDate.getD 0,
      createdAt := now,
      isLocked := true,
      aiHint := aiHint,
      aiReflection := reflection }
  (saveCapsule c s, c)

/-- The `handleSubmit` of `CreateCapsule.tsx` chained with the `onSubmit`
callback (`handleCreateSubmit`): return early when
`!formData.title || !formData.unlockDate`; otherwise generate the hint when
a media file is attached and create the capsule.  `none` in the second
component means the early return was taken and nothing was persisted. -/
def handleSubmit (freshId : String) (now : Int) (ai : AIOutcome)
    (form : CreateCapsuleFormData) (s : Store) : Store × Option Capsule :=
  if form.title = "" ∨ form.unlockDate = none then (s, none)
  else
    let aiHint : Option String :=
      form.mediaFile.map (fun f =>
        let t :=
          if f.type.startsWith "image" then "image"
          else if f.type.startsWith "audio" then "audio"
          else "video"
        generateCapsuleHint f t ai)
    let r := handleCreateSubmit freshId now ai form aiHint s
    (r.1, some r.2)

/-- The comparator passed to `data.sort` in `loadCapsules` of `App.tsx`:
equal lock status compares by unlock time difference, otherwise a locked
capsule sorts after an unlocked one. -/
def capsuleCompare (a b : Capsule) : Int :=
  if a.isLocked = b.isLocked then a.unlockDate - b.unlockDate
  else if a.isLocked then 1 else -1

/-- The non-strict order induced by the comparator: `a` may be placed
before `b` exactly when the comparator is at most zero. -/
def capsuleLE (a b : Capsule) : Prop := capsuleCompare a b ≤ 0

instance : DecidableRel capsuleLE :=
  fun a b => inferInstanceAs (Decidable (capsuleCompare a b ≤ 0))

/-- The sort performed by `loadCapsules`.  ECMAScript `Array.prototype.sort`
is a stable sort consistent with the comparator, which is exactly
`List.insertionSort` by the induced non-strict order. -/
def sortCapsules (l : List Capsule) : List Capsule :=
  l.insertionSort capsuleLE

/-- The `loadCapsules` of `App.tsx`: fetch every capsule (re-hydrated) and
sort it for the listing. -/
def loadCapsules (mkUrl : Blob → String) (now : Int) (s : Store) :
    List Capsule :=
  sortCapsules (getAllCapsules mkUrl now s)

/-- Readable characterisation of `capsuleLE`: unlocked-before-locked, or
same lock status and non-decreasing unlock date. -/
def sortKeyOrder (a b : Capsule) : Prop :=
  (a.isLocked = false ∧ b.isLocked = true) ∨
  (a.isLocked = b.isLocked ∧ a.unlockDate ≤ b.unlockDate)

/-- One MediaStreamTrack of an acquired device stream; `stop()` marks it
stopped and releases the device. -/
structure Track where
  stopped : Bool
deriving DecidableEq, Repr

/-- The `RecordingMode` union of `CreateCapsule.tsx`:
`'none' | 'audio' | 'video'`. -/
inductive RecMode
  | noMode
  | audio
  | video
deriving DecidableEq, Repr

/-- Calling `track.stop()`. -/
def stopTrack (t : Track) : Track := { t with stopped := true }

/-- State of the `CreateCapsule` component relevant to capture:
the React state variables (`recordingMode`, `isRecording`, `recordingTime`,
`stream`, `mediaError`), the refs (`mediaRecorderRef` as `recOpen` plus the
requested mime type captured by the `startRecording` closure, `chunksRef`,
`timerRef` as `timerActive`) and `formData.mediaFile`.  The device stream is
`streamHeld` together with `session`, the tracks it holds; `graveyard`
keeps every track of previously superseded or released streams so that
"all acquired tracks" remains observable.  `recCapturedStream` records the
`stream` value seen by the `cleanupMedia` closure the recorder's `onstop`
handler captured when `startRecording` ran: `true` when that render's
`stream` was the held stream, `false` when it was still null — on the
audio auto-start path `startRecording` runs in the same render as
`setStream`, before the new stream value is visible, so the captured
`stream` is null. -/
structure CaptureState where
  recordingMode : RecMode
  isRecording : Bool
  recordingTime : Nat
  streamHeld : Bool
  session : List Track
  graveyard : List Track
  timerActive : Bool
  mediaError : Option String
  chunks : List Blob
  recOpen : Bool
  reqType : Option String
  recCapturedStream : Bool
  mediaFile : Option Blob
deriving DecidableEq, Repr

/-- Every device track the component ever acquired. -/
def allTracks (st : CaptureState) : List Track :=
  st.graveyard ++ st.session

/-- The `cleanupMedia` of `CreateCapsule.tsx` as invoked from a closure
whose captured `stream` view is `sees`: the `if (stream)` branch — stopping
that stream's tracks and `setStream(null)` — runs only when the captured
`stream` was non-null (`sees = true`, in which case it is the held
stream); the timer ref is cleared and `isRecording`, `recordingTime` and
`mediaError` are reset through the stable setters regardless. -/
def cleanupMediaClosure (sees : Bool) (st : CaptureState) : CaptureState :=
  let st1 :=
    if sees then
      { st with graveyard := st.graveyard ++ st.session.map stopTrack,
                session := [], streamHeld := false }
    else st
  let st2 := if st1.timerActive then { st1 with timerActive := false } else st1
  { st2 with isRecording := false, recordingTime := 0, mediaError := none }

/-- The `cleanupMedia` of `CreateCapsule.tsx` as invoked from the current
render (cancel and clear buttons): its captured `stream` is the current
one, non-null exactly when a stream is held. -/
def cleanupMedia (st : CaptureState) : CaptureState :=
  cleanupMediaClosure st.streamHeld st

/-- The `startRecording` of `CreateCapsule.tsx` on the successful path:
reset the chunk buffer, create and start the recorder (remembering the
requested mime type and, through the `onstop` handler's `cleanupMedia`,
the stream view `sees` of the render that defined this `startRecording`),
mark recording and arm the 1-second timer. -/
def startRecording (reqType : String) (sees : Bool) (st : CaptureState) :
    CaptureState :=
  { st with chunks := [], recOpen := true, reqType := some reqType,
            recCapturedStream := sees, isRecording := true,
            timerActive := true }

/-- Does the list start with the given pattern? -/
def startsWithList {α : Type} [DecidableEq α] : List α → List α → Bool
  | _, [] => true
  | [], _ :: _ => false
  | a :: as, b :: bs => decide (a = b) && startsWithList as bs

/-- Does the list contain the pattern as a contiguous run? -/
def containsList {α : Type} [DecidableEq α] : List α → List α → Bool
  | [], pat => pat.isEmpty
  | a :: as, pat => startsWithList (a :: as) pat || containsList as pat

/-- JavaScript `String.prototype.includes`: substring containment. -/
def strIncludes (s pat : String) : Bool := containsList s.data pat.data

/-- The `recorder.onstop` handler: take the content type of the first
buffered fragment, falling back to the requested type when there is no
fragment or its type is empty (`chunksRef.current[0]?.type ||
mimeTypePrefix`); concatenate the fragments into one blob of that type; and
wrap it in a file named `recording.webm` (both arms of the extension
conditional are `webm`). -/
def recorderOnStop (chunks : List Blob) (reqType : String) : Blob :=
  let mimeType :=
    match chunks with
    | [] => reqType
    | c :: _ => if c.type = "" then reqType else c.type
  let ext := if strIncludes mimeType "video" then "webm" else "webm"
  { name := "recording." ++ ext, type := mimeType,
    bytes := (chunks.map Blob.bytes).flatten }

/-- Events driving the capture component: device acquisition outcomes (with
the number of tracks granted), the explicit video record button, recorder
start failure, the 1-second timer tick, a `dataavailable` delivery, the
stop button, the cancel button and the clear-media button. -/
inductive CaptureEvent
  | acquireAudioOk (n : Nat)
  | acquireAudioFail
  | acquireVideoOk (n : Nat)
  | acquireVideoFail
  | userStartRecording
  | recorderStartFail
  | tick
  | dataAvailable (b : Blob)
  | stopRecording
  | cancelRecording
  | clearMedia
deriving DecidableEq, Repr

/-- Fresh, not-yet-stopped tracks granted by `getUserMedia`. -/
def freshTracks (n : Nat) : List Track :=
  List.replicate n { stopped := false }

/-- Transition function of the capture component, one case per source
handler.  `acquireAudioOk` follows `startAudioMode` (set mode, set stream,
auto-start recording with requested type `audio/webm`); `acquireVideoOk`
follows `startVideoMode` (set mode, set stream, preview only);
the `Fail` variants set the respective `mediaError`; `userStartRecording`
is the record button (`stream && startRecording(stream, 'video/webm')`);
`dataAvailable` buffers a fragment only when its size is positive;
`stopRecording` runs `recorder.stop()` and its `onstop` handler (build the
file, set `formData.mediaFile`, then the *captured* `cleanupMedia`, whose
`stream` view is `recCapturedStream`); `cancelRecording` and `clearMedia`
clean up through the current render and reset the mode, the latter also
clearing the media file.  On the audio auto-start path `startRecording`
runs before the `setStream` re-render, so its `onstop` captures a null
stream (`sees := false`); the video record button is a later render's
closure whose `stream` is the held one (`sees := true`).  A `setStream`
over a still-held stream moves its tracks, unstopped, to the graveyard —
exactly the leak the source would have. -/
def step (st : CaptureState) : CaptureEvent → CaptureState
  | .acquireAudioOk n =>
      let st1 :=
        { st with recordingMode := .audio,
                  graveyard :=
                    st.graveyard ++ (if st.streamHeld then st.session else []),
                  session := freshTracks n, streamHeld := true }
      startRecording "audio/webm" false st1
  | .acquireAudioFail =>
      { st with recordingMode := .audio,
                mediaError := some "Could not access microphone." }
  | .acquireVideoOk n =>
      { st with recordingMode := .video,
                graveyard :=
                  st.graveyard ++ (if st.streamHeld then st.session else []),
                session := freshTracks n, streamHeld := true }
  | .acquireVideoFail =>
      { st with recordingMode := .video,
                mediaError := some "Could not access camera/microphone." }
  | .userStartRecording =>
      if st.streamHeld then startRecording "video/webm" true st else st
  | .recorderStartFail =>
      { st with chunks := [],
                mediaError := some "Failed to start recording." }
  | .tick =>
      if st.timerActive then
        { st with recordingTime := st.recordingTime + 1 }
      else st
  | .dataAvailable b =>
      if st.isRecording then
        if b.size > 0 then { st with chunks := st.chunks ++ [b] } else st
      else st
  | .stopRecording =>
      if st.recOpen && st.isRecording then
        let f := recorderOnStop st.chunks (st.reqType.getD "")
        cleanupMediaClosure st.recCapturedStream { st with mediaFile := some f }
      else st
  | .cancelRecording =>
      { cleanupMedia st with recordingMode := .noMode }
  | .clearMedia =>
      { cleanupMedia { st with mediaFile := none } with
          recordingMode := .noMode }

/-- Run a sequence of events. -/
def run (st : CaptureState) (evs : List CaptureEvent) : CaptureState :=
  evs.foldl step st

/-- The component state right after mounting. -/
def initState : CaptureState :=
  { recordingMode := .noMode, isRecording := false, recordingTime := 0,
    streamHeld := false, session := [], graveyard := [],
    timerActive := false, mediaError := none, chunks := [],
    recOpen := false, reqType := none, recCapturedStream := false,
    mediaFile := none }

/-- Events that may occur between acquiring a video stream and cancelling,
without ever reaching a `Stopped` transition: the record button, timer
ticks, fragment deliveries and a recorder start failure. -/
def isMidEvent : CaptureEvent → Bool
  | .userStartRecording => true
  | .recorderStartFail => true
  | .tick => true
  | .dataAvailable _ => true
  | _ => false

/-- Display value computed by `calculateTimeLeft` in `CapsuleCard.tsx`:
either the `UNLOCKED` string or the `d h m s` countdown components. -/
inductive TimeLeftView
  | unlockedView
  | counting (d h m s : Nat)
deriving DecidableEq, Repr

/-- The `calculateTimeLeft` of `CapsuleCard.tsx`: with
`distance = unlockTime - now`, a negative distance yields `UNLOCKED` (and
the card's local lock flag false); otherwise the four floor-truncated
components (and the flag true). -/
def calculateTimeLeft (unlockDate now : Int) : TimeLeftView × Bool :=
  let distance := unlockDate - now
  if distance < 0 then (.unlockedView, false)
  else
    let dist := distance.toNat
    (.counting (dist / 86400000) (dist % 86400000 / 3600000)
      (dist % 3600000 / 60000) (dist % 60000 / 1000), true)

/-- A concrete image file used to instantiate the theorems. -/
def demoBlob : Blob := { name := "a.png", type := "image/png", bytes := [1, 2, 3] }

/-- A concrete capsule used to instantiate the theorems. -/
def demoCapsule : Capsule :=
  { id := "cap-1", title := "Title", description := "Note",
    mediaType := .image, mediaBlob := some demoBlob,
    mediaUrl := some "blob:old", unlockDate := 2000, createdAt := 10,
    isLocked := true, aiHint := none, aiReflection := none }

/-- A concrete object-URL generator used to instantiate the theorems. -/
def demoUrl : Blob → String := fun _ => "blob:handle"

/-- A text-only stored record with the given id and unlock instant. -/
def demoRecord (i : String) (unlock : Int) : StoredCapsule :=
  { id := i, title := i, description := "", mediaType := .text,
    mediaBlob := none, unlockDate := unlock, createdAt := 0,
    isLocked := true, aiHint := none, aiReflection := none }

/-- The store of the listing example: unlock dates T+1, T+5, T-1 and T+3
around T = 1000. -/
def demoListingStore : Store :=
  [demoRecord "a" 1001, demoRecord "b" 1005, demoRecord "c" 999,
   demoRecord "d" 1003]

/-- A recorded video fragment used to instantiate the capture theorems. -/
def demoChunk : Blob := { name := "", type := "video/webm", bytes := [7, 7] }

/-- Events of the concrete capture scenario: press record, let the timer
tick, receive a fragment, tick again. -/
def demoMid : List CaptureEvent :=
  [.userStartRecording, .tick, .dataAvailable demoChunk, .tick]

/-- Start a video capture, run some intermediate events, then cancel
before any stop. -/
def captureScenario (s0 : CaptureState) (n : Nat)
    (mid : List CaptureEvent) : CaptureState :=
  step (run (step s0 (.acquireVideoOk n)) mid) .cancelRecording

/-- A locked capsule used to instantiate the tie-break theorems. -/
def demoTieA : Capsule :=
  { id := "t1", title := "t1", description := "", mediaType := .text,
    mediaBlob := none, mediaUrl := none, unlockDate := 5, createdAt := 0,
    isLocked := true, aiHint := none, aiReflection := none }

/-- A second locked capsule with the same unlock instant as `demoTieA`. -/
def demoTieB : Capsule :=
  { id := "t2", title := "t2", description := "", mediaType := .text,
    mediaBlob := none, mediaUrl := none, unlockDate := 5, createdAt := 0,
    isLocked := true, aiHint := none, aiReflection := none }

instance : IsTotal Capsule capsuleLE := by
  constructor
  intro a b
  unfold capsuleLE capsuleCompare
  cases ha : a.isLocked <;> cases hb : b.isLocked <;> simp <;> omega

instance : IsTrans Capsule capsuleLE := by
  constructor
  intro a b c hab hbc
  unfold capsuleLE capsuleCompare at *
  cases ha : a.isLocked <;> cases hb : b.isLocked <;> cases hc : c.isLocked <;>
    simp_all <;> omega

theorem capsuleLE_iff (a b : Capsule) : capsuleLE a b ↔ sortKeyOrder a b := by
  unfold capsuleLE capsuleCompare sortKeyOrder
  cases ha : a.isLocked <;> cases hb : b.isLocked <;> simp

theorem putRecord_mem (r : StoredCapsule) (s : Store) : r ∈ putRecord r s := by
  unfold putRecord
  split
  · rename_i h
    rcases List.any_eq_true.mp h with ⟨x, hx, hid⟩
    refine List.mem_map.mpr ⟨x, hx, ?_⟩
    simp [of_decide_eq_true hid]
  · simp

theorem putRecord_eq_of_id (r : StoredCapsule) (s : Store) :
    ∀ x ∈ putRecord r s, x.id = r.id → x = r := by
  intro x hx hid
  unfold putRecord at hx
  split at hx
  · rcases List.mem_map.mp hx with ⟨y, hy, hxy⟩
    by_cases h : y.id = r.id
    · simpa [h] using hxy.symm
    · rw [if_neg h] at hxy
      exact absurd (hxy ▸ hid) h
  · rename_i hany
    rcases List.mem_append.mp hx with h | h
    · exact absurd (List.any_eq_true.mpr ⟨x, h, decide_eq_true hid⟩) hany
    · simpa using h

/-- C1: saving a capsule and loading the store back yields a capsule with
identical id, title, description, unlockDate, createdAt, mediaType and
byte-identical mediaBlob; the persisted record carries no mediaUrl (saving
is insensitive to the transient handle, and the record with the capsule's
key is exactly the stripped record, whose type has no mediaUrl field), and
the mediaUrl seen after a load is freshly derived from mediaBlob by the
load-time handle generator. -/
theorem c1_roundtrip (c : Capsule) (s : Store) (mkUrl : Blob → String)
    (now : Int) :
    (∀ u : Option String, saveCapsule { c with mediaUrl := u } s = saveCapsule c s) ∧
    (∀ r ∈ saveCapsule c s, r.id = c.id → r = stripTransient c) ∧
    ∃ c2 ∈ getAllCapsules mkUrl now (saveCapsule c s),
      c2.id = c.id ∧ c2.title = c.title ∧ c2.description = c.description ∧
      c2.unlockDate = c.unlockDate ∧ c2.createdAt = c.createdAt ∧
      c2.mediaType = c.mediaType ∧ c2.mediaBlob = c.mediaBlob ∧
      c2.mediaUrl = c.mediaBlob.map mkUrl := by
  refine ⟨fun u => rfl, putRecord_eq_of_id _ _, ?_⟩
  refine ⟨rehydrate mkUrl now (stripTransient c), ?_, ?_⟩
  · exact List.mem_map.mpr ⟨stripTransient c, putRecord_mem _ _, rfl⟩
  · simp [rehydrate, stripTransient]

/-- Evaluation of `c1_roundtrip` at a concrete capsule and empty store. -/
theorem c1_roundtrip_witness :
    (saveCapsule { demoCapsule with mediaUrl := none } [] = saveCapsule demoCapsule []) ∧
    ∃ c2 ∈ getAllCapsules demoUrl 0 (saveCapsule demoCapsule []),
      c2.id = demoCapsule.id ∧ c2.title = demoCapsule.title ∧
      c2.description = demoCapsule.description ∧
      c2.unlockDate = demoCapsule.unlockDate ∧
      c2.createdAt = demoCapsule.createdAt ∧
      c2.mediaType = demoCapsule.mediaType ∧
      c2.mediaBlob = demoCapsule.mediaBlob ∧
      c2.mediaUrl = demoCapsule.mediaBlob.map demoUrl := by
  obtain ⟨h1, _, h3⟩ := c1_roundtrip demoCapsule [] demoUrl 0
  exact ⟨h1 none, h3⟩

/-- C2: every capsule returned by `getAllCapsules` has `isLocked` equal to
the strict comparison `unlockDate > now` computed at read time; the output
is unchanged when the stored lock flags are arbitrarily rewritten (the
stored flag is never trusted); and a capsule whose unlock instant equals
the current instant comes back unlocked. -/
theorem c2_lock_recomputed (mkUrl : Blob → String) (now : Int) (s : Store)
    (f : StoredCapsule → Bool) :
    ((getAllCapsules mkUrl now s).map Capsule.isLocked
        = s.map (fun r => decide (r.unlockDate > now))) ∧
    (getAllCapsules mkUrl now (s.map (fun r => { r with isLocked := f r }))
        = getAllCapsules mkUrl now s) ∧
    (∀ c ∈ getAllCapsules mkUrl now s, c.unlockDate = now → c.isLocked = false) := by
  refine ⟨?_, ?_, ?_⟩
  · simp [getAllCapsules, rehydrate]
  · simp [getAllCapsules, rehydrate]
  · intro c hc h
    rcases List.mem_map.mp hc with ⟨r, _, rfl⟩
    simp only [rehydrate] at h ⊢
    simp [h]

/-- Evaluation of `c2_lock_recomputed` on a record unlocking exactly at the
read instant. -/
theorem c2_lock_recomputed_witness :
    ∀ c ∈ getAllCapsules demoUrl 999 [demoRecord "c" 999],
      c.unlockDate = 999 → c.isLocked = false := by
  have h := (c2_lock_recomputed demoUrl 999 [demoRecord "c" 999]
    (fun _ => true)).2.2
  exact h

/-- C9: deletion is idempotent — deleting the same id twice equals deleting
it once; after a delete no loaded capsule carries that id; and deleting an
id that is not in the store is a no-op rather than an error (the operation
is total and returns the store unchanged). -/
theorem c9_delete_idempotent (i : String) (s : Store) (mkUrl : Blob → String)
    (now : Int) :
    (deleteCapsule i (deleteCapsule i s) = deleteCapsule i s) ∧
    (∀ c ∈ getAllCapsules mkUrl now (deleteCapsule i s), c.id ≠ i) ∧
    ((∀ r ∈ s, r.id ≠ i) → deleteCapsule i s = s) := by
  refine ⟨?_, ?_, ?_⟩
  · simp [deleteCapsule, List.filter_filter]
  · intro c hc
    rcases List.mem_map.mp hc with ⟨r, hr, rfl⟩
    have hkeep := List.of_mem_filter hr
    simpa [rehydrate] using of_decide_eq_true hkeep
  · intro h
    exact List.filter_eq_self.mpr fun r hr => decide_eq_true (h r hr)

/-- Evaluation of `c9_delete_idempotent` at a store that does not contain
the deleted id. -/
theorem c9_delete_idempotent_witness :
    (deleteCapsule "gone" (deleteCapsule "gone" [demoRecord "a" 1001])
        = deleteCapsule "gone" [demoRecord "a" 1001]) ∧
    (∀ c ∈ getAllCapsules demoUrl 0 (deleteCapsule "gone" [demoRecord "a" 1001]),
        c.id ≠ "gone") ∧
    deleteCapsule "gone" [demoRecord "a" 1001] = [demoRecord "a" 1001] := by
  obtain ⟨h1, h2, h3⟩ :=
    c9_delete_idempotent "gone" [demoRecord "a" 1001] demoUrl 0
  exact ⟨h1, h2, h3 (by decide)⟩

/-- C10: whenever the enrichment service is unavailable (no API key), the
call fails, or it returns an empty result, `refineUserNote` returns its
input note unchanged; being a total function of the outcome, it throws in
none of these cases. -/
theorem c10_refine_note_identity (note : String) (ai : AIOutcome)
    (h : ai = .noApiKey ∨ ai = .failure ∨ ai = .success "") :
    refineUserNote note ai = note := by
  rcases h with rfl | rfl | rfl <;> simp [refineUserNote]

/-- Evaluation of `c10_refine_note_identity` at a failing call. -/
theorem c10_refine_note_identity_witness :
    refineUserNote "hello" .failure = "hello" :=
  c10_refine_note_identity "hello" .failure (Or.inr (Or.inl rfl))

/-- C3: the listing sort is a permutation of its input that is pairwise in
the listing order — every unlocked capsule before every locked one, and
non-decreasing unlock dates within a group; two capsules of the same group
with equal unlock dates keep their original relative order; and on the
concrete store with unlock dates T+1, T+5, T-1 and T+3 around T = 1000 the
listing comes back as T-1, T+1, T+3, T+5. -/
theorem c3_listing_order (l : List Capsule) (a b : Capsule)
    (hpair : List.Sublist [a, b] l) (hlock : a.isLocked = b.isLocked)
    (hdate : a.unlockDate = b.unlockDate) :
    (sortCapsules l).Pairwise sortKeyOrder ∧
    List.Perm (sortCapsules l) l ∧
    List.Sublist [a, b] (sortCapsules l) ∧
    (loadCapsules demoUrl 1000 demoListingStore).map Capsule.unlockDate
      = [999, 1001, 1003, 1005] := by
  refine ⟨?_, List.perm_insertionSort capsuleLE l, ?_, by decide⟩
  · exact List.Pairwise.imp (fun h => (capsuleLE_iff _ _).mp h)
      (List.sorted_insertionSort capsuleLE l)
  · exact List.pair_sublist_insertionSort
      ((capsuleLE_iff a b).mpr (Or.inr ⟨hlock, le_of_eq hdate⟩)) hpair

/-- Evaluation of `c3_listing_order` at a concrete pair of equal-key
capsules and the concrete example store. -/
theorem c3_listing_order_witness :
    List.Sublist [demoTieA, demoTieB] (sortCapsules [demoTieA, demoTieB]) ∧
    (loadCapsules demoUrl 1000 demoListingStore).map Capsule.unlockDate
      = [999, 1001, 1003, 1005] := by
  obtain ⟨_, _, h3, h4⟩ := c3_listing_order [demoTieA, demoTieB]
    demoTieA demoTieB (List.Sublist.refl _) rfl rfl
  exact ⟨h3, h4⟩

/-- C4 counterexample: a form whose unlock instant (50) is already in the
past at creation time (100) is not rejected — a capsule is returned and the
store is written. -/
theorem c4_counterexample :
    ((handleSubmit "id-1" 100 .noApiKey
        { title := "t", description := "", unlockDate := some 50,
          mediaFile := none } []).2 ≠ none) ∧
    (handleSubmit "id-1" 100 .noApiKey
        { title := "t", description := "", unlockDate := some 50,
          mediaFile := none } []).1 ≠ [] := by
  decide

/-- C4 (amended): submission rejects synchronously — returning without
persisting anything — exactly when the title is empty or the unlock date is
absent; no ValidationError value is produced, and a present unlock date is
accepted, the capsule created and persisted, even when the date is not in
the future relative to the creation time. -/
theorem c4_validation (freshId : String) (now : Int) (ai : AIOutcome)
    (form : CreateCapsuleFormData) (s : Store) :
    ((form.title = "" ∨ form.unlockDate = none) →
        handleSubmit freshId now ai form s = (s, none)) ∧
    (∀ d : Int, form.title ≠ "" → form.unlockDate = some d →
        ∃ c : Capsule, (handleSubmit freshId now ai form s).2 = some c ∧
          (handleSubmit freshId now ai form s).1 = saveCapsule c s ∧
          c.unlockDate = d ∧ c.title = form.title ∧ c.createdAt = now) := by
  constructor
  · intro h
    simp [handleSubmit, h]
  · intro d ht hd
    have hcond : ¬(form.title = "" ∨ form.unlockDate = none) := by
      simp [ht, hd]
    unfold handleSubmit
    rw [if_neg hcond]
    exact ⟨_, rfl, rfl, by simp [handleCreateSubmit, hd], rfl, rfl⟩

/-- Evaluation of `c4_validation`: an empty title is rejected with nothing
persisted, and a valid form is accepted. -/
theorem c4_validation_witness :
    (handleSubmit "id-1" 100 .noApiKey
        { title := "", description := "", unlockDate := some 200,
          mediaFile := none } [] = ([], none)) ∧
    ∃ c : Capsule,
      (handleSubmit "id-1" 100 .noApiKey
          { title := "t", description := "", unlockDate := some 200,
            mediaFile := none } []).2 = some c ∧
      (handleSubmit "id-1" 100 .noApiKey
          { title := "t", description := "", unlockDate := some 200,
            mediaFile := none } []).1 = saveCapsule c [] ∧
      c.unlockDate = 200 ∧ c.title = "t" ∧ c.createdAt = 100 := by
  constructor
  · exact (c4_validation "id-1" 100 .noApiKey
      { title := "", description := "", unlockDate := some 200,
        mediaFile := none } []).1 (Or.inl rfl)
  · exact (c4_validation "id-1" 100 .noApiKey
      { title := "t", description := "", unlockDate := some 200,
        mediaFile := none } []).2 200 (by decide) rfl

/-- C5 counterexample: with the enrichment collaborator failing and an
image attached, the created capsule's aiHint is the fixed non-empty default
string "A securely sealed memory.", not an empty field. -/
theorem c5_counterexample :
    ((handleSubmit "id-1" 0 .failure
        { title := "t", description := "note", unlockDate := some 5,
          mediaFile := some demoBlob } []).2.map Capsule.aiHint)
      = some (some "A securely sealed memory.") ∧
    "A securely sealed memory." ≠ "" := by
  decide

/-- C5 (amended): with the enrichment collaborator unavailable or failing,
creation still succeeds and persists a capsule — the flow is a total
function, so no exception propagates; aiReflection is left empty (absent
without a note, the empty string with one), while aiHint is absent without
an artifact and is a fixed non-empty default string when an artifact is
attached. -/
theorem c5_enrichment_outage (freshId : String) (now : Int) (ai : AIOutcome)
    (form : CreateCapsuleFormData) (d : Int) (s : Store)
    (hai : ai = .noApiKey ∨ ai = .failure)
    (ht : form.title ≠ "") (hd : form.unlockDate = some d) :
    ∃ c : Capsule, (handleSubmit freshId now ai form s).2 = some c ∧
      (handleSubmit freshId now ai form s).1 = saveCapsule c s ∧
      (c.aiReflection = none ∨ c.aiReflection = some "") ∧
      (form.mediaFile = none → c.aiHint = none) ∧
      (∀ f, form.mediaFile = some f →
          ∃ msg, c.aiHint = some msg ∧ msg ≠ "") := by
  have hcond : ¬(form.title = "" ∨ form.unlockDate = none) := by
    simp [ht, hd]
  unfold handleSubmit
  rw [if_neg hcond]
  refine ⟨_, rfl, rfl, ?_, ?_, ?_⟩
  · by_cases hdesc : form.description = ""
    · exact Or.inl (by simp [handleCreateSubmit, hdesc])
    · refine Or.inr ?_
      rcases hai with rfl | rfl <;>
        simp [handleCreateSubmit, hdesc, generateFutureReflection]
  · intro hf
    simp [handleCreateSubmit, hf]
  · intro f hf
    rcases hai with rfl | rfl
    · exact ⟨"A mysterious memory from the past...",
        by simp [handleCreateSubmit, hf, generateCapsuleHint], by decide⟩
    · exact ⟨"A securely sealed memory.",
        by simp [handleCreateSubmit, hf, generateCapsuleHint], by decide⟩

/-- Evaluation of `c5_enrichment_outage` at a failing collaborator, with a
note and an image attached. -/
theorem c5_enrichment_outage_witness :
    ∃ c : Capsule,
      (handleSubmit "id-1" 0 .failure
          { title := "t", description := "note", unlockDate := some 5,
            mediaFile := some demoBlob } []).2 = some c ∧
      (handleSubmit "id-1" 0 .failure
          { title := "t", description := "note", unlockDate := some 5,
            mediaFile := some demoBlob } []).1 = saveCapsule c [] ∧
      (c.aiReflection = none ∨ c.aiReflection = some "") ∧
      (∃ msg, c.aiHint = some msg ∧ msg ≠ "") := by
  obtain ⟨c, h1, h2, h3, _, h5⟩ := c5_enrichment_outage "id-1" 0 .failure
    { title := "t", description := "note", unlockDate := some 5,
      mediaFile := some demoBlob } 5 [] (Or.inr rfl) (by decide) rfl
  exact ⟨c, h1, h2, h3, h5 demoBlob rfl⟩

theorem cleanupMediaClosure_spec (sees : Bool) (st : CaptureState) :
    (cleanupMediaClosure sees st).isRecording = false ∧
    (cleanupMediaClosure sees st).recordingTime = 0 ∧
    (cleanupMediaClosure sees st).timerActive = false ∧
    (sees = true →
      (cleanupMediaClosure sees st).streamHeld = false ∧
      (cleanupMediaClosure sees st).session = [] ∧
      (cleanupMediaClosure sees st).graveyard
        = st.graveyard ++ st.session.map stopTrack) ∧
    (sees = false →
      (cleanupMediaClosure sees st).streamHeld = st.streamHeld ∧
      (cleanupMediaClosure sees st).session = st.session ∧
      (cleanupMediaClosure sees st).graveyard = st.graveyard) := by
  unfold cleanupMediaClosure
  cases sees <;> by_cases h2 : st.timerActive <;> simp [h2]

theorem cleanupMedia_spec (st : CaptureState) :
    (cleanupMedia st).isRecording = false ∧
    (cleanupMedia st).recordingTime = 0 ∧
    (cleanupMedia st).timerActive = false ∧
    (cleanupMedia st).streamHeld = false ∧
    (st.streamHeld = true →
      (cleanupMedia st).session = [] ∧
      (cleanupMedia st).graveyard = st.graveyard ++ st.session.map stopTrack) ∧
    (st.streamHeld = false →
      (cleanupMedia st).session = st.session ∧
      (cleanupMedia st).graveyard = st.graveyard) := by
  unfold cleanupMedia cleanupMediaClosure
  by_cases h : st.streamHeld <;> by_cases h2 : st.timerActive <;>
    simp [h, h2]

theorem step_mid_tracks (st : CaptureState) (e : CaptureEvent)
    (he : isMidEvent e = true) :
    (step st e).graveyard = st.graveyard ∧
    (step st e).session = st.session ∧
    (step st e).streamHeld = st.streamHeld := by
  cases e with
  | userStartRecording =>
      simp only [step]
      split <;> simp [startRecording]
  | recorderStartFail => simp [step]
  | tick =>
      simp only [step]
      split <;> simp
  | dataAvailable b =>
      simp only [step]
      split
      · split <;> simp
      · simp
  | _ => simp [isMidEvent] at he

theorem run_mid_tracks (mid : List CaptureEvent) (st : CaptureState) :
    (∀ e ∈ mid, isMidEvent e = true) →
    (run st mid).graveyard = st.graveyard ∧
    (run st mid).session = st.session ∧
    (run st mid).streamHeld = st.streamHeld := by
  induction mid generalizing st with
  | nil => intro _; exact ⟨rfl, rfl, rfl⟩
  | cons e es ih =>
      intro hmid
      obtain ⟨h1, h2, h3⟩ := step_mid_tracks st e (hmid e (by simp))
      obtain ⟨g1, g2, g3⟩ := ih (step st e) (fun x hx => hmid x (by simp [hx]))
      have hrun : run st (e :: es) = run (step st e) es := rfl
      rw [hrun]
      exact ⟨g1.trans h1, g2.trans h2, g3.trans h3⟩

/-- C6 counterexample: stopping an auto-started audio recording is a
Recording → Stopped transition — it leaves the Recording state and hands
over the artifact — yet it runs the stale captured cleanup (null stream
view), so the acquired device track is never stopped and the stream stays
held. -/
theorem c6_counterexample :
    (run initState [.acquireAudioOk 1, .stopRecording]).isRecording = false ∧
    (run initState [.acquireAudioOk 1, .stopRecording]).mediaFile.isSome
      = true ∧
    (run initState [.acquireAudioOk 1, .stopRecording]).streamHeld = true ∧
    (run initState [.acquireAudioOk 1, .stopRecording]).session
      = [{ stopped := false }] := by
  decide

/-- C6 (amended): starting a video capture and cancelling before any stop
leaves every acquired device track stopped, the elapsed-time counter at
zero, the timer cleared and no stream held, whatever record presses, timer
ticks, fragment deliveries or recorder start failures happened in between;
the cancel and clear-media transitions always release the held stream,
stop its tracks, clear the timer and zero the counter; stopping a
recording always clears the timer, zeroes the counter and leaves the
Recording state, but it releases the stream and stops its tracks only when
the recorder's onstop closure captured the held stream (video recording
started from the armed preview) — on the audio auto-start path the
captured stream is null, and the acquired tracks stay live with the stream
still held. -/
theorem c6_capture_cleanup (s0 : CaptureState) (n : Nat)
    (mid : List CaptureEvent)
    (h0 : ∀ t ∈ allTracks s0, t.stopped = true)
    (hmid : ∀ e ∈ mid, isMidEvent e = true) :
    ((∀ t ∈ allTracks (captureScenario s0 n mid), t.stopped = true) ∧
      (captureScenario s0 n mid).recordingTime = 0 ∧
      (captureScenario s0 n mid).timerActive = false ∧
      (captureScenario s0 n mid).isRecording = false ∧
      (captureScenario s0 n mid).streamHeld = false) ∧
    (∀ st : CaptureState,
      ((step st .cancelRecording).streamHeld = false ∧
        (step st .cancelRecording).timerActive = false ∧
        (step st .cancelRecording).recordingTime = 0 ∧
        (step st .cancelRecording).isRecording = false) ∧
      (st.streamHeld = true →
        (step st .cancelRecording).session = [] ∧
        (step st .cancelRecording).graveyard
          = st.graveyard ++ st.session.map stopTrack) ∧
      ((step st .clearMedia).streamHeld = false ∧
        (step st .clearMedia).timerActive = false ∧
        (step st .clearMedia).recordingTime = 0 ∧
        (step st .clearMedia).isRecording = false) ∧
      (st.recOpen = true → st.isRecording = true →
        (step st .stopRecording).timerActive = false ∧
        (step st .stopRecording).recordingTime = 0 ∧
        (step st .stopRecording).isRecording = false ∧
        (st.recCapturedStream = true →
          (step st .stopRecording).streamHeld = false ∧
          (step st .stopRecording).session = [] ∧
          (step st .stopRecording).graveyard
            = st.graveyard ++ st.session.map stopTrack) ∧
        (st.recCapturedStream = false →
          (step st .stopRecording).streamHeld = st.streamHeld ∧
          (step st .stopRecording).session = st.session ∧
          (step st .stopRecording).graveyard = st.graveyard))) := by
  constructor
  · have hs1g : (step s0 (.acquireVideoOk n)).graveyard
        = s0.graveyard ++ (if s0.streamHeld then s0.session else []) := by
      simp [step]
    have hs1s : (step s0 (.acquireVideoOk n)).session = freshTracks n := by
      simp [step]
    have hs1h : (step s0 (.acquireVideoOk n)).streamHeld = true := by
      simp [step]
    obtain ⟨g1, g2, g3⟩ := run_mid_tracks mid (step s0 (.acquireVideoOk n)) hmid
    have hheld : (run (step s0 (.acquireVideoOk n)) mid).streamHeld = true :=
      g3.trans hs1h
    obtain ⟨c1, c2, c3, c4, c5, _⟩ :=
      cleanupMedia_spec (run (step s0 (.acquireVideoOk n)) mid)
    obtain ⟨c5a, c5b⟩ := c5 hheld
    refine ⟨?_, c2, c3, c1, c4⟩
    intro t ht
    have ht2 : t ∈ (cleanupMedia (run (step s0 (.acquireVideoOk n)) mid)).graveyard
        ++ (cleanupMedia (run (step s0 (.acquireVideoOk n)) mid)).session := ht
    rw [c5a, c5b, g1, g2, hs1g, hs1s] at ht2
    simp only [List.append_nil, List.mem_append] at ht2
    rcases ht2 with (hg | hite) | hsess
    · exact h0 t (List.mem_append.mpr (Or.inl hg))
    · have hts : t ∈ s0.session := by
        by_cases hh : s0.streamHeld
        · simpa [hh] using hite
        · simp [hh] at hite
      exact h0 t (List.mem_append.mpr (Or.inr hts))
    · rcases List.mem_map.mp hsess with ⟨x, _, rfl⟩
      rfl
  · intro st
    obtain ⟨d1, d2, d3, d4, d5, _⟩ := cleanupMedia_spec st
    obtain ⟨e1, e2, e3, e4, _, _⟩ :=
      cleanupMedia_spec { st with mediaFile := none }
    refine ⟨⟨d4, d3, d2, d1⟩, fun hh => d5 hh, ⟨e4, e3, e2, e1⟩, ?_⟩
    intro hro hir
    have hcond : (st.recOpen && st.isRecording) = true := by
      rw [hro, hir]; rfl
    obtain ⟨f1, f2, f3, f4, f5⟩ := cleanupMediaClosure_spec st.recCapturedStream
      { st with mediaFile := some (recorderOnStop st.chunks (st.reqType.getD "")) }
    refine ⟨?_, ?_, ?_, ?_, ?_⟩ <;> simp only [step, hcond, if_true] <;>
      first
        | exact f3
        | exact f2
        | exact f1
        | exact f4
        | exact f5

/-- Evaluation of `c6_capture_cleanup` on the concrete scenario: acquire a
two-track video stream, press record, tick, receive a fragment, tick,
cancel. -/
theorem c6_capture_cleanup_witness :
    (∀ t ∈ allTracks (captureScenario initState 2 demoMid), t.stopped = true) ∧
    (captureScenario initState 2 demoMid).recordingTime = 0 ∧
    (captureScenario initState 2 demoMid).timerActive = false ∧
    (captureScenario initState 2 demoMid).isRecording = false ∧
    (captureScenario initState 2 demoMid).streamHeld = false :=
  (c6_capture_cleanup initState 2 demoMid (by decide) (by decide)).1

/-- C7 counterexample: stopping an audio recording before any fragment was
buffered still hands the caller an artifact — a `recording.webm` file — of
size zero, contradicting "non-zero size, or no artifact is produced at
all". -/
theorem c7_counterexample :
    (run initState [.acquireAudioOk 1, .stopRecording]).mediaFile
      = some { name := "recording.webm", type := "audio/webm", bytes := [] } ∧
    Blob.size { name := "recording.webm", type := "audio/webm", bytes := [] }
      = 0 := by
  decide

/-- C7 (amended): the artifact produced on stop is always named with the
fixed webm extension; it is tagged with the first buffered fragment's
content type, falling back to the originally requested type when no
fragment was produced or the first fragment's type is empty; the tag is
non-empty whenever the requested type is; and the artifact's size is the
total size of the buffered fragments — an artifact is produced even when
that total is zero. -/
theorem c7_artifact (chunks : List Blob) (reqType : String)
    (hreq : reqType ≠ "") :
    (recorderOnStop chunks reqType).name = "recording.webm" ∧
    (recorderOnStop chunks reqType).type ≠ "" ∧
    (chunks = [] → (recorderOnStop chunks reqType).type = reqType) ∧
    (∀ c cs, chunks = c :: cs → c.type ≠ "" →
        (recorderOnStop chunks reqType).type = c.type) ∧
    (∀ c cs, chunks = c :: cs → c.type = "" →
        (recorderOnStop chunks reqType).type = reqType) ∧
    (recorderOnStop chunks reqType).size = (chunks.map Blob.size).sum := by
  have hname : ∀ mt : String,
      ("recording." ++ (if strIncludes mt "video" then "webm" else "webm"))
        = "recording.webm" := by
    intro mt
    rw [ite_self]
    decide
  refine ⟨?_, ?_, ?_, ?_, ?_, ?_⟩
  · cases chunks with
    | nil => exact hname _
    | cons c cs => exact hname _
  · cases chunks with
    | nil => simpa [recorderOnStop] using hreq
    | cons c cs =>
        by_cases hct : c.type = "" <;> simp [recorderOnStop, hct, hreq]
  · intro h
    subst h
    simp [recorderOnStop]
  · intro c cs h hct
    subst h
    simp [recorderOnStop, hct]
  · intro c cs h hct
    subst h
    simp [recorderOnStop, hct]
  · show ((chunks.map Blob.bytes).flatten).length = (chunks.map Blob.size).sum
    rw [List.length_flatten, List.map_map]
    rfl

/-- Evaluation of `c7_artifact` at a single buffered video fragment. -/
theorem c7_artifact_witness :
    (recorderOnStop [demoChunk] "video/webm").name = "recording.webm" ∧
    (recorderOnStop [demoChunk] "video/webm").type = "video/webm" ∧
    (recorderOnStop [demoChunk] "video/webm").size
      = ([demoChunk].map Blob.size).sum := by
  obtain ⟨h1, _, _, h4, _, h6⟩ := c7_artifact [demoChunk] "video/webm" (by decide)
  exact ⟨h1, by simpa [demoChunk] using h4 demoChunk [] rfl (by decide), h6⟩

/-- C8: the countdown splits the distance to the unlock instant into days,
hours, minutes and seconds, each floor-truncated — the represented duration
never exceeds the true distance and undershoots it by less than one
second — and once the current time has reached the unlock instant the
display is clamped: either the UNLOCKED view (strictly past) or the
all-zero countdown (exactly at the instant). -/
theorem c8_remaining_time (unlockDate now : Int) :
    (now ≥ unlockDate →
      (calculateTimeLeft unlockDate now).1 = .unlockedView ∨
      (calculateTimeLeft unlockDate now).1 = .counting 0 0 0 0) ∧
    (∀ d h m s : Nat,
      (calculateTimeLeft unlockDate now).1 = .counting d h m s →
      h < 24 ∧ m < 60 ∧ s < 60 ∧
      d * 86400000 + h * 3600000 + m * 60000 + s * 1000
        ≤ (unlockDate - now).toNat ∧
      (unlockDate - now).toNat
        < d * 86400000 + h * 3600000 + m * 60000 + s * 1000 + 1000) := by
  by_cases hlt : unlockDate - now < 0
  · constructor
    · intro _
      exact Or.inl (by simp [calculateTimeLeft, hlt])
    · intro d h m s hc
      simp [calculateTimeLeft, hlt] at hc
  · constructor
    · intro hge
      have h0 : unlockDate - now = 0 := by omega
      exact Or.inr (by simp [calculateTimeLeft, hlt, h0])
    · intro d h m s hc
      simp [calculateTimeLeft, hlt] at hc
      obtain ⟨hd, hh, hm, hs⟩ := hc
      subst hd
      subst hh
      subst hm
      subst hs
      refine ⟨?_, ?_, ?_, ?_, ?_⟩ <;> omega

/-- Evaluation of `c8_remaining_time` at the exact unlock instant and at a
distance of 1 day, 1 hour, 1 minute, 1.5 seconds. -/
theorem c8_remaining_time_witness :
    ((calculateTimeLeft 1000 1000).1 = .unlockedView ∨
      (calculateTimeLeft 1000 1000).1 = .counting 0 0 0 0) ∧
    (1 < 24 ∧ 1 < 60 ∧ 1 < 60 ∧
      1 * 86400000 + 1 * 3600000 + 1 * 60000 + 1 * 1000
        ≤ ((90061500 : Int) - 0).toNat ∧
      ((90061500 : Int) - 0).toNat
        < 1 * 86400000 + 1 * 3600000 + 1 * 60000 + 1 * 1000 + 1000) :=
  ⟨(c8_remaining_time 1000 1000).1 (le_refl 1000),
    (c8_remaining_time 90061500 0).2 1 1 1 1 (by decide)⟩

end ChronosVault
